import Mathlib

/-!
Verification of the scheduler engine of `discord_http` (`tasks.py`):
the `Sleeper` countdown timer and the `Loop` periodic-task supervisor.

Shallow embedding conventions:
* Instants are integers (a count of time units since an arbitrary epoch,
  UTC; Python `datetime` arithmetic is exact at microsecond resolution,
  so integer instants are faithful — we use seconds as the unit).
* A `datetime.time` with a fixed-offset `tzinfo` is a pair of a
  seconds-of-day value and a UTC offset.
* Python floor division `//` and modulo `%` become `Int.fdiv` / `Int.fmod`.
* The asyncio event loop is modelled by explicit state passing: the body
  of the supervised task is an oracle (`BodyOutcome`) and wall-clock
  reads (`utils.utcnow()`) are oracle inputs threaded through each cycle.
-/

/-! ## Time-of-day model (absolute-time mode) -/

/-- Number of time units (seconds) in one day. -/
def secondsPerDay : Int := 86400

/-- A `datetime.time` carrying a fixed-offset timezone: `sod` is the
local seconds-of-day, `off` the UTC offset of its `tzinfo` in seconds. -/
structure TimeOfDay where
  sod : Int
  off : Int
deriving DecidableEq, Repr

instance : Inhabited TimeOfDay := ⟨⟨0, 0⟩⟩

/-- Local calendar day of the instant `now` observed at UTC offset `off`
(Python: `now.astimezone(tz).date()`, as a day count since the epoch). -/
def localDay (now off : Int) : Int := (now + off).fdiv secondsPerDay

/-- Local seconds-of-day of the instant `now` at UTC offset `off`
(Python: `now.astimezone(tz).timetz()`, as seconds). -/
def localSod (now off : Int) : Int := (now + off).fmod secondsPerDay

/-- Absolute instant of local day `day` at time-of-day `t`
(Python: `datetime.combine(date, time, tzinfo=time.tzinfo).astimezone(UTC)`). -/
def combineLocal (day : Int) (t : TimeOfDay) : Int :=
  day * secondsPerDay + t.sod - t.off

/-- Does `t` qualify at instant `now`: the source comparison
`ts >= now.astimezone(ts.tzinfo).timetz()`.  Both operands share the
same `tzinfo`, so Python compares the bare clock values. -/
def qualifiesAt (now : Int) (t : TimeOfDay) : Bool :=
  localSod now t.off ≤ t.sod

/-- Scan of the `for i, ts in enumerate(self._time)` loop in
`Loop._find_time_index`: index of the first qualifying time. -/
def findTimeIndexGo (now : Int) : List TimeOfDay → Option Nat
  | [] => none
  | t :: rest =>
    if localSod now t.off ≤ t.sod then some 0
    else (findTimeIndexGo now rest).map (· + 1)

/-- Source `Loop._find_time_index`: `None` on an empty (or absent) time
list, otherwise the first qualifying index, else `None`. -/
def findTimeIndex (times : List TimeOfDay) (now : Int) : Option Nat :=
  if times.isEmpty then none else findTimeIndexGo now times

/-- Source `Loop._next_sleep_time`, absolute-time branch (the
`self._sleep is None` case). -/
def nextSleepTimeAbs (times : List TimeOfDay) (now : Int) : Int :=
  match findTimeIndex times now with
  | some i =>
    let t := times.getD i default
    combineLocal (localDay now t.off) t
  | none =>
    let t := times.headD default
    combineLocal (localDay now t.off + 1) t

/-- Modelled from the claim wording (spec §4.2 scheduling algorithm,
absolute-time mode), for comparison with `nextSleepTimeAbs`: take the
first listed time whose time-of-day is greater than or equal to `now`
converted into that time's timezone, combined with today's date; if no
listed time qualifies, the first time in the list combined with
tomorrow's date. -/
def specNextRunAbs (times : List TimeOfDay) (now : Int) : Int :=
  match times.find? (qualifiesAt now) with
  | some t => combineLocal (localDay now t.off) t
  | none =>
    match times with
    | [] => 0
    | t :: _ => combineLocal (localDay now t.off + 1) t

/-! ## Sleeper (countdown timer) -/

/-- An `asyncio.TimerHandle` produced by `loop.call_later`: the scheduled
delay and whether `cancel()` has been called on it. -/
structure TimerHandle where
  delay : Int
  cancelled : Bool
deriving DecidableEq, Repr

/-- State of a `Sleeper`: the handle currently stored in `self.handle`,
the handles it replaced, and the state of `self.future`. -/
structure Sleeper where
  current : TimerHandle
  old : List TimerHandle
  futureDone : Bool
  futureCancelled : Bool
deriving DecidableEq, Repr

/-- Source `Sleeper.__init__`: schedule `future.set_result` after
`max((dt - utcnow()).total_seconds(), 0)`. -/
def mkSleeper (dt now : Int) : Sleeper :=
  ⟨⟨max (dt - now) 0, false⟩, [], false, false⟩

/-- Source `Sleeper.recalculate`: cancel the current handle and install
a new one for the new deadline, clamped at zero. -/
def Sleeper.recalculate (s : Sleeper) (dt now : Int) : Sleeper :=
  { current := ⟨max (dt - now) 0, false⟩,
    old := { s.current with cancelled := true } :: s.old,
    futureDone := s.futureDone,
    futureCancelled := s.futureCancelled }

/-- Source `Sleeper.done`: `self.future.done()` — a future is done once
resolved or cancelled. -/
def Sleeper.done (s : Sleeper) : Bool := s.futureDone || s.futureCancelled

/-- Source `Sleeper.cancel`: cancel both the future and the handle. -/
def Sleeper.cancel (s : Sleeper) : Sleeper :=
  { s with futureCancelled := true, current := { s.current with cancelled := true } }

/-- Number of live (not-cancelled) timer registrations owned by the
sleeper: the pending-trigger count of the spec. -/
def Sleeper.pendingTriggers (s : Sleeper) : Nat :=
  (if s.current.cancelled then 0 else 1) +
    (s.old.filter (fun h => !h.cancelled)).length

/-! ## Loop (periodic task supervisor): configuration validation -/

/-- Configuration errors raised by `Loop.__init__` / `Loop.handle_interval`
(`ValueError` / `TypeError`). -/
inductive ConfigError
  | valueError
  | typeError
deriving DecidableEq, Repr

/-- A `datetime.time` argument value: seconds-of-day plus an optional
fixed UTC offset (`none` models a naive time). -/
structure PyTime where
  sod : Int
  off : Option Int
deriving DecidableEq, Repr

/-- An element of a user-supplied `time` list: either an actual
`datetime.time` or some other value. -/
inductive PyVal
  | time (t : PyTime)
  | other
deriving DecidableEq, Repr

/-- The `time` argument of `Loop.__init__` / `Loop.handle_interval`:
absent (`None`), a single `datetime.time`, a sequence of values, or a
non-time non-sequence value. -/
inductive TimeArg
  | noTime
  | single (t : PyTime)
  | seq (xs : List PyVal)
  | nonSeq
deriving DecidableEq, Repr

/-- Timezone normalization in `Loop._sort_static_times`: a naive time is
reinterpreted in UTC (`ts.replace(tzinfo=UTC)`). -/
def PyTime.normalize (t : PyTime) : TimeOfDay := ⟨t.sod, t.off.getD 0⟩

/-- Key by which Python orders and deduplicates timezone-aware times:
the clock value adjusted by the UTC offset. -/
def utcKey (t : TimeOfDay) : Int := t.sod - t.off

/-- Ordered insertion dropping duplicates, by `utcKey`. -/
def insertTime (t : TimeOfDay) : List TimeOfDay → List TimeOfDay
  | [] => [t]
  | u :: rest =>
    if utcKey t < utcKey u then t :: u :: rest
    else if utcKey t == utcKey u then u :: rest
    else u :: insertTime t rest

/-- Deterministic model of `sorted(set(output))` in
`Loop._sort_static_times` (the hash-dependent choice among
equal-compare times does not affect any proved claim). -/
def sortDedupTimes (l : List TimeOfDay) : List TimeOfDay :=
  l.foldr insertTime []

/-- Source `Loop._sort_static_times`: validate and normalize the `time`
argument.  A bare time becomes a singleton; a non-sequence raises
`TypeError`; an empty sequence raises `ValueError`; a sequence element
that is not a `datetime.time` raises `TypeError`. -/
def sortStaticTimes (arg : TimeArg) : Except ConfigError (List TimeOfDay) :=
  match arg with
  | .single t => .ok [t.normalize]
  | .noTime => .error .typeError
  | .nonSeq => .error .typeError
  | .seq xs =>
    if xs.isEmpty then .error .valueError
    else if xs.any (fun v => match v with | .time _ => false | .other => true) then
      .error .typeError
    else
      .ok (sortDedupTimes (xs.filterMap
        (fun v => match v with | .time t => some t.normalize | .other => none)))

/-- Python truthiness of an optional float argument (`None` and `0.0`
are falsy). -/
def truthyQ : Option ℚ → Bool
  | none => false
  | some q => q != 0

/-- A validated schedule specification as stored on the instance:
either the relative fields (`_seconds`/`_minutes`/`_hours`/`_sleep`) or
the absolute `_time` list. -/
inductive Sched
  | rel (seconds minutes hours sleep : ℚ)
  | abs (times : List TimeOfDay)
deriving DecidableEq, Repr

/-- Validation part of source `Loop.handle_interval` (lines before the
running-loop update): relative durations are floats, modelled exactly as
rationals. -/
def handleIntervalArgs (seconds minutes hours : Option ℚ) (time : TimeArg) :
    Except ConfigError Sched :=
  match time with
  | .noTime =>
    let s := seconds.getD 0
    let m := minutes.getD 0
    let h := hours.getD 0
    let sleep := s + m * 60 + h * 3600
    if sleep ≤ 0 then .error .valueError
    else .ok (.rel s m h sleep)
  | t =>
    if truthyQ seconds || truthyQ minutes || truthyQ hours then .error .valueError
    else (sortStaticTimes t).map .abs

/-- Source `Loop.__init__` configuration checks: the count bound is
validated first, then the interval via `handle_interval`. -/
def loopInit (count : Option Int) (seconds minutes hours : Option ℚ)
    (time : TimeArg) : Except ConfigError (Sched × Option Int) :=
  match count with
  | some c =>
    if c ≤ 0 then .error .valueError
    else (handleIntervalArgs seconds minutes hours time).map (fun s => (s, count))
  | none => (handleIntervalArgs seconds minutes hours time).map (fun s => (s, count))

/-- Modelled from the claim wording (spec §4.2 construction contract),
for comparison with `loopInit`: a configuration error is raised exactly
when the relative interval total is non-positive, when both the relative
and the absolute form are supplied, when the count bound is supplied and
non-positive, or when, in absolute form, the times-of-day value is empty,
is not a time or list of times, or contains a value that is not a
time-of-day. -/
def configErrorSpec (count : Option Int) (seconds minutes hours : Option ℚ)
    (time : TimeArg) : Prop :=
  (∃ c, count = some c ∧ c ≤ 0) ∨
  (time = .noTime ∧
    seconds.getD 0 + minutes.getD 0 * 60 + hours.getD 0 * 3600 ≤ 0) ∨
  (time ≠ .noTime ∧ (truthyQ seconds ∨ truthyQ minutes ∨ truthyQ hours)) ∨
  (time = .seq []) ∨
  (∃ xs, time = .seq xs ∧ .other ∈ xs) ∨
  (time = .nonSeq)

/-! ## Loop (periodic task supervisor): run-state machine -/

/-- The active schedule form of a running loop, as used by the looper:
a relative duration (one exact `timedelta` in time units) or the
absolute time-of-day list. -/
inductive Mode
  | relative (sleep : Int)
  | absolute (times : List TimeOfDay)
deriving DecidableEq, Repr

/-- Source `Loop._is_explicit_time`: whether `self._time` is set. -/
def Mode.isExplicit : Mode → Bool
  | .relative _ => false
  | .absolute _ => true

/-- The mutable state of a `Loop` instance (the fields set in
`Loop.__init__` plus the `_handle` attribute, which the source never
initializes: `none` models the attribute being absent). -/
structure LoopState where
  mode : Mode
  count : Option Nat
  reconnect : Bool
  taskLive : Bool
  handle : Option Sleeper
  willCancel : Bool
  shouldStop : Bool
  hasFaild : Bool
  lastLoopFailed : Bool
  lastLoop : Option Int
  nextLoop : Option Int
  loopCount : Nat
deriving DecidableEq, Repr

/-- State of a freshly constructed `Loop` (end of `Loop.__init__`). -/
def initLoopState (m : Mode) (count : Option Nat) (reconnect : Bool) : LoopState :=
  { mode := m, count := count, reconnect := reconnect, taskLive := false,
    handle := none, willCancel := false, shouldStop := false, hasFaild := false,
    lastLoopFailed := false, lastLoop := none, nextLoop := none, loopCount := 0 }

/-- Source `Loop._next_sleep_time`: relative mode returns
`self._last_loop + timedelta(seconds=self._sleep)` (every call site has
`_last_loop` set; `getD 0` is the out-of-model `None` case), absolute
mode delegates to the time-of-day search. -/
def nextSleepTime (mode : Mode) (lastLoop : Option Int) (now : Int) : Int :=
  match mode with
  | .relative d => lastLoop.getD 0 + d
  | .absolute ts => nextSleepTimeAbs ts now

/-- Outcome of one invocation of the task body (`await self.func(...)`):
success, an exception matched by `self._whitelist_exceptions`, an
`asyncio.CancelledError`, or any other exception.  `isExc` records
whether the exception class derives from `Exception` (as opposed to a
bare `BaseException` such as `KeyboardInterrupt`). -/
inductive BodyOutcome
  | success
  | whitelisted (isExc : Bool)
  | cancelledErr
  | fatal (isExc : Bool)
deriving DecidableEq, Repr

/-- Oracle inputs consumed by one iteration of the `while True` loop in
`Loop._looper`: the wall-clock reads and the behaviour of the body. -/
structure CycleInput where
  wakeNow : Int
  advanceNow : Int
  guardNows : List Int
  outcome : BodyOutcome
  stopDuringBody : Bool
  relSleepNow : Int
deriving DecidableEq, Repr

/-- Kind of exception escaping the `while True` loop toward the outer
`except` clauses of `Loop._looper`. -/
inductive ExcKind
  | cancelled
  | fatalExc
  | baseExc
deriving DecidableEq, Repr

/-- Why the `while True` loop in `Loop._looper` was left. -/
inductive CycleExit
  | stopped
  | countReached
  | raised (k : ExcKind)
deriving DecidableEq, Repr

/-- Result of one loop iteration: continue with a new state (and an
optional backoff sleep in time units), or leave the loop. -/
inductive StepRes
  | cont (s : LoopState) (backoff : Option Int)
  | exit (s : LoopState) (e : CycleExit)
deriving DecidableEq, Repr

/-- Instance state carried by a step result. -/
def StepRes.stateOf : StepRes → LoopState
  | .cont s _ => s
  | .exit s _ => s

/-- The mis-wake guard of `Loop._looper` (the inner
`while self._is_explicit_time() and self._next_loop <= self._last_loop`
loop): re-sleeps and recomputes until the deadline is strictly later,
consuming one oracle wall-clock value per recomputation; `none` when the
oracle list runs out before the guard is satisfied. -/
def driftGuard (ts : List TimeOfDay) (lastLoop : Int) :
    Int → List Int → Option Int
  | next, [] => if lastLoop < next then some next else none
  | next, n :: rest =>
    if lastLoop < next then some next
    else driftGuard ts lastLoop (nextSleepTimeAbs ts n) rest

/-- Lines 176–192 of `Loop._looper` (the part of an iteration before the
body runs): the absolute-mode sleep, then — unless the previous cycle
failed — the advance `_last_loop = _next_loop; _next_loop =
_next_sleep_time()` with the mis-wake guard. -/
def preBody (s : LoopState) (inp : CycleInput) : Option LoopState :=
  let s1 :=
    if s.mode.isExplicit then
      { s with handle := some (mkSleeper (s.nextLoop.getD 0) inp.wakeNow) }
    else s
  if s1.lastLoopFailed then some s1
  else
    let last := s1.nextLoop
    match s1.mode with
    | .relative d => some { s1 with lastLoop := last, nextLoop := some (last.getD 0 + d) }
    | .absolute ts =>
      match driftGuard ts (last.getD 0) (nextSleepTimeAbs ts inp.advanceNow) inp.guardNows with
      | none => none
      | some nx => some { s1 with lastLoop := last, nextLoop := some nx }

/-- Python truthiness of `self.count` in the termination test
`if self.count and self.loop_count >= self.count`. -/
def countTruthy : Option Nat → Bool
  | none => false
  | some c => c != 0

/-- Lines 194–214 of `Loop._looper` (the body invocation and the
classification of its outcome).  A `stop()` arriving while the body ran
is modelled by `stopDuringBody`. -/
def postBody (s0 : LoopState) (inp : CycleInput) : StepRes :=
  let s := { s0 with shouldStop := s0.shouldStop || inp.stopDuringBody }
  match inp.outcome with
  | .success =>
    let s := { s with lastLoopFailed := false }
    if s.shouldStop then .exit s .stopped
    else
      let s :=
        if s.mode.isExplicit then s
        else { s with handle := some (mkSleeper (s.nextLoop.getD 0) inp.relSleepNow) }
      let s := { s with loopCount := s.loopCount + 1 }
      if countTruthy s.count && decide (s.count.getD 0 ≤ s.loopCount) then
        .exit s .countReached
      else .cont s none
  | .whitelisted isExc =>
    let s := { s with lastLoopFailed := true }
    if !s.reconnect then .exit s (.raised (if isExc then .fatalExc else .baseExc))
    else .cont s (some 5)
  | .cancelledErr => .exit s (.raised .cancelled)
  | .fatal isExc => .exit s (.raised (if isExc then .fatalExc else .baseExc))

/-- One full iteration of the `while True` loop. -/
def cycleStep (s : LoopState) (inp : CycleInput) : Option StepRes :=
  (preBody s inp).map (fun s1 => postBody s1 inp)

/-- What escapes the finished run context to whoever awaits the task. -/
inductive RaiseKind
  | cancelled
  | baseExc
  | attrError
deriving DecidableEq, Repr

/-- Observable result of the tail of `Loop._looper`: final instance
state, whether the error and after-loop hooks were awaited, and what (if
anything) the task raises. -/
structure FinishOut where
  state : LoopState
  errorHookCalled : Bool
  afterLoopCalled : Bool
  raises : Option RaiseKind
deriving DecidableEq, Repr

/-- Lines 216–228 of `Loop._looper`: the outer `except` clauses and the
`finally` block.  `except Exception` only matches `Exception`-derived
failures; the `finally` reads `self._handle`, which raises
`AttributeError` when the attribute was never assigned, skipping the
flag resets. -/
def looperFinish (s0 : LoopState) (e : CycleExit) : FinishOut :=
  let p : LoopState × Bool × Option RaiseKind :=
    match e with
    | .stopped => (s0, false, none)
    | .countReached => (s0, false, none)
    | .raised .cancelled => ({ s0 with willCancel := true }, false, some .cancelled)
    | .raised .fatalExc => ({ s0 with hasFaild := true }, true, none)
    | .raised .baseExc => (s0, false, some .baseExc)
  let s := { p.1 with taskLive := false }
  match s.handle with
  | none => ⟨s, p.2.1, true, some .attrError⟩
  | some h =>
    let s2 :=
      { s with
        handle := some h.cancel
        willCancel := false
        loopCount := 0
        shouldStop := false }
    ⟨s2, p.2.1, true, p.2.2⟩

/-- Result of running a looper on a finite oracle trace: the run context
terminated, the trace ran out while the loop was still live, or the
mis-wake guard exhausted its wall-clock oracle. -/
inductive RunResult
  | finished (f : FinishOut)
  | running (s : LoopState)
  | stuck (s : LoopState)
deriving DecidableEq, Repr

/-- Iterate `cycleStep` over the oracle trace. -/
def runCycles : LoopState → List CycleInput → RunResult
  | s, [] => .running s
  | s, i :: rest =>
    match cycleStep s i with
    | none => .stuck s
    | some (.cont s1 _) => runCycles s1 rest
    | some (.exit s1 e) => .finished (looperFinish s1 e)

/-- Source `Loop._looper` head (lines 162–173) plus the loop: clear the
failed-cycle flag, compute the initial deadline (absolute mode) or set
it to now (relative mode), honour an already-requested stop, then run
the cycles. -/
def runLooper (s0 : LoopState) (now0 : Int) (inps : List CycleInput) : RunResult :=
  let s := { s0 with lastLoopFailed := false }
  let s :=
    match s.mode with
    | .absolute ts => { s with nextLoop := some (nextSleepTimeAbs ts now0) }
    | .relative _ => { s with nextLoop := some now0 }
  if s.shouldStop then .finished (looperFinish s .stopped)
  else runCycles s inps

/-- Result of a `Loop.start` call: whether it raised `RuntimeError`,
the instance state after the call, and whether a task was spawned. -/
structure StartRes where
  raised : Bool
  state : LoopState
  spawned : Bool
deriving DecidableEq, Repr

/-- Source `Loop.start`: raise if a task is live (before touching any
state), otherwise clear the failed-cycle flag and spawn the task. -/
def Loop.start (s : LoopState) : StartRes :=
  if s.taskLive then ⟨true, s, false⟩
  else ⟨false, { s with lastLoopFailed := false, taskLive := true }, true⟩

/-- Source `Loop.stop`: request a graceful stop if running. -/
def Loop.stop (s : LoopState) : LoopState :=
  if s.taskLive then { s with shouldStop := true } else s

/-- Source `Loop._can_be_cancelled`. -/
def canBeCancelled (s : LoopState) : Bool :=
  !s.willCancel && s.taskLive

/-- Source `Loop.cancel`: delivers a `CancelledError` to the task (an
oracle event in this model); mutates no instance field itself. -/
def Loop.cancel (s : LoopState) : LoopState := s

/-- Source `Loop.failed` property. -/
def Loop.failed (s : LoopState) : Bool := s.hasFaild

/-- Lines 434–437 of `Loop.handle_interval` (after validation replaced
the schedule fields): when running with `_last_loop` set, recompute the
deadline and, reading `self._handle`, recalculate a pending sleeper.
Returns the new state, whether a live `recalculate` was issued, and the
`AttributeError` raised when `_handle` was never assigned. -/
def applyInterval (s : LoopState) (m : Mode) (now : Int) :
    LoopState × Bool × Option RaiseKind :=
  let s1 := { s with mode := m }
  if s1.taskLive && s1.lastLoop.isSome then
    let nx := nextSleepTime m s1.lastLoop now
    let s2 := { s1 with nextLoop := some nx }
    match s2.handle with
    | none => (s2, false, some .attrError)
    | some h =>
      if !h.done then
        ({ s2 with handle := some (h.recalculate nx now) }, true, none)
      else (s2, false, none)
  else (s1, false, none)

/-- Projection helpers over `RunResult` for closed statements. -/
def RunResult.stateOf : RunResult → LoopState
  | .finished f => f.state
  | .running s => s
  | .stuck s => s

def RunResult.finishOut : RunResult → Option FinishOut
  | .finished f => some f
  | .running _ => none
  | .stuck _ => none

/-! ## Concrete scenarios used by counterexamples and bug witnesses -/

/-- A freshly constructed relative-mode loop (10-unit interval, no count
bound, reconnect on) that has been started. -/
def startedRelLoop : LoopState :=
  (Loop.start (initLoopState (.relative 10) none true)).state

/-- Cycle input: the body succeeds, but a `stop()` arrived while it ran. -/
def stopDuringFirstCycle : CycleInput :=
  ⟨0, 0, [], .success, true, 0⟩

/-- Cycle input: the body is cancelled on the first cycle. -/
def cancelFirstCycle : CycleInput :=
  ⟨0, 0, [], .cancelledErr, false, 0⟩

/-- Cycle input: the body raises a non-whitelisted, non-`Exception`
`BaseException` (e.g. `KeyboardInterrupt`). -/
def baseExcCycle : CycleInput :=
  ⟨0, 0, [], .fatal false, false, 0⟩

/-- Cycle input: the body completes normally. -/
def quietCycle : CycleInput :=
  ⟨0, 0, [], .success, false, 0⟩

/-- A live relative-mode loop that has completed one cycle and is
suspended on a fresh sleeper, for exercising `handle_interval`. -/
def c8State : LoopState :=
  { initLoopState (.relative 10) none true with
    taskLive := true
    handle := some (mkSleeper 20 0)
    lastLoop := some 10
    nextLoop := some 20
    loopCount := 1 }

/-- A loop instance whose sticky failed flag has been set. -/
def failedState : LoopState :=
  { initLoopState (.relative 10) none true with hasFaild := true }

/-- Run: stop requested during the first body of a fresh relative loop. -/
def runStopBeforeSleep : RunResult :=
  runLooper startedRelLoop 0 [stopDuringFirstCycle]

/-- Run: cancellation during the first body of a fresh relative loop. -/
def runCancelBeforeSleep : RunResult :=
  runLooper startedRelLoop 0 [cancelFirstCycle]

/-- Run: one successful cycle of a fresh relative loop, then a body that
raises a non-whitelisted, non-`Exception` failure. -/
def runBaseExc : RunResult :=
  runLooper startedRelLoop 0 [quietCycle, baseExcCycle]

/-- Whether a step result continues the loop. -/
def StepRes.isCont : StepRes → Bool
  | .cont _ _ => true
  | .exit _ _ => false

/-- Backoff sleep attached to a continuing step result. -/
def StepRes.backoffOf : StepRes → Option Int
  | .cont _ b => b
  | .exit _ _ => none

/-- A relative-mode loop state about to run its first cycle. -/
def c2State : LoopState :=
  { initLoopState (.relative 10) none true with nextLoop := some 0 }

/-- Expected state after the first advance step of `c2State`. -/
def c2Next : LoopState :=
  { initLoopState (.relative 10) none true with
    lastLoop := some 0
    nextLoop := some 10 }

/-- A relative-mode loop state with a pending deadline of 10. -/
def relReady : LoopState :=
  { initLoopState (.relative 10) none true with nextLoop := some 10 }

/-- Cycle input: the body raises a whitelisted exception. -/
def wlCycle : CycleInput := ⟨0, 0, [], .whitelisted true, false, 0⟩

/-- Cycle input: the body raises a fatal ordinary exception. -/
def fatalCycle : CycleInput := ⟨0, 0, [], .fatal true, false, 0⟩

/-- Expected retry-cycle state after a whitelisted failure on `relReady`. -/
def c4Retry : LoopState :=
  { initLoopState (.relative 10) none true with
    nextLoop := some 10
    lastLoopFailed := true }

/-- A started loop with a count bound of one. -/
def c9Loop : LoopState :=
  (Loop.start (initLoopState (.relative 10) (some 1) true)).state

/-- The finish record of running `c9Loop` for one successful cycle. -/
def c9Fin : FinishOut :=
  (runLooper c9Loop 0 [quietCycle]).finishOut.getD
    ⟨initLoopState (.relative 10) none true, false, false, none⟩

lemma findTimeIndexGo_lt_length (now : Int) :
    ∀ (ts : List TimeOfDay) (i : Nat), findTimeIndexGo now ts = some i → i < ts.length := by
  intro ts
  induction ts with
  | nil => intro i h; simp [findTimeIndexGo] at h
  | cons t rest ih =>
    intro i h
    simp only [findTimeIndexGo] at h
    split at h
    · injection h with h
      subst h
      simp
    · rw [Option.map_eq_some'] at h
      obtain ⟨j, hj, rfl⟩ := h
      have := ih j hj
      simp
      omega

lemma findTimeIndexGo_find? (now : Int) :
    ∀ (ts : List TimeOfDay),
      (findTimeIndexGo now ts).map (fun i => ts.getD i default) =
        ts.find? (qualifiesAt now) := by
  intro ts
  induction ts with
  | nil => rfl
  | cons t rest ih =>
    by_cases hq : localSod now t.off ≤ t.sod
    · simp [findTimeIndexGo, hq, List.find?, qualifiesAt]
    · simp only [findTimeIndexGo, if_neg hq, List.find?]
      have hqb : qualifiesAt now t = false := by
        simp [qualifiesAt, hq]
      rw [hqb]
      rw [← ih]
      cases h : findTimeIndexGo now rest with
      | none => simp
      | some j => simp

lemma nextSleepTimeAbs_eq_spec (times : List TimeOfDay) (now : Int) (h : times ≠ []) :
    nextSleepTimeAbs times now = specNextRunAbs times now := by
  have hne : times.isEmpty = false := by
    cases times with
    | nil => exact absurd rfl h
    | cons t rest => rfl
  have hfind := findTimeIndexGo_find? now times
  unfold nextSleepTimeAbs specNextRunAbs findTimeIndex
  rw [hne]
  simp only [Bool.false_eq_true, if_false]
  cases hgo : findTimeIndexGo now times with
  | some i =>
    rw [hgo] at hfind
    simp only [Option.map_some'] at hfind
    rw [← hfind]
  | none =>
    rw [hgo] at hfind
    simp only [Option.map_none'] at hfind
    rw [← hfind]
    cases times with
    | nil => exact absurd rfl h
    | cons t rest => rfl


lemma preBody_inv (s : LoopState) (i : CycleInput) (s1 : LoopState)
    (h : preBody s i = some s1) :
    s1.hasFaild = s.hasFaild ∧ s1.loopCount = s.loopCount ∧
    (s1.handle = none → s.handle = none) ∧ s1.mode = s.mode ∧
    s1.count = s.count ∧ s1.taskLive = s.taskLive ∧
    s1.willCancel = s.willCancel ∧ s1.shouldStop = s.shouldStop ∧
    (s.mode.isExplicit = true → s1.handle ≠ none) := by
  cases hm : s.mode with
  | relative d =>
    by_cases hf : s.lastLoopFailed = true
    · simp [preBody, hm, hf, Mode.isExplicit] at h
      subst h
      simp [hm, Mode.isExplicit]
    · simp [preBody, hm, hf, Mode.isExplicit] at h
      subst h
      simp [hm, Mode.isExplicit]
  | absolute ts =>
    by_cases hf : s.lastLoopFailed = true
    · simp [preBody, hm, hf, Mode.isExplicit] at h
      subst h
      simp [hm, Mode.isExplicit]
    · simp [preBody, hm, hf, Mode.isExplicit] at h
      cases hg : driftGuard ts (s.nextLoop.getD 0)
          (nextSleepTimeAbs ts i.advanceNow) i.guardNows with
      | none =>
        rw [hg] at h
        simp at h
      | some nx =>
        rw [hg] at h
        simp only [Option.some_inj] at h
        subst h
        simp [hm, Mode.isExplicit]

lemma postBody_inv (s : LoopState) (i : CycleInput)
    (hmode : s.mode.isExplicit = true → s.handle ≠ none) :
    (postBody s i).stateOf.hasFaild = s.hasFaild ∧
    (postBody s i).stateOf.mode = s.mode ∧
    (postBody s i).stateOf.count = s.count ∧
    (postBody s i).stateOf.taskLive = s.taskLive ∧
    (postBody s i).stateOf.willCancel = s.willCancel ∧
    ((postBody s i).stateOf.handle = none →
      s.handle = none ∧ (postBody s i).stateOf.loopCount = s.loopCount) := by
  cases ho : i.outcome with
  | success =>
    simp only [postBody, ho]
    by_cases hstop : (s.shouldStop || i.stopDuringBody) = true
    · simp [hstop, StepRes.stateOf]
    · cases hm : s.mode with
      | relative d =>
        simp only [hstop, hm, Mode.isExplicit, Bool.false_eq_true, if_false]
        split <;> simp [StepRes.stateOf]
      | absolute ts =>
        rw [hm] at hmode
        simp only [hstop, hm, Mode.isExplicit, if_true, Bool.false_eq_true, if_false]
        split <;> simp [StepRes.stateOf] <;> intro hnone <;>
          exact absurd hnone (hmode rfl)
  | whitelisted isExc =>
    simp only [postBody, ho]
    by_cases hr : s.reconnect = true <;> simp [hr, StepRes.stateOf]
  | cancelledErr => simp [postBody, ho, StepRes.stateOf]
  | fatal isExc => simp [postBody, ho, StepRes.stateOf]

lemma cycleStep_inv (s : LoopState) (i : CycleInput) (r : StepRes)
    (h : cycleStep s i = some r) :
    r.stateOf.hasFaild = s.hasFaild ∧ r.stateOf.mode = s.mode ∧
    r.stateOf.count = s.count ∧ r.stateOf.taskLive = s.taskLive ∧
    r.stateOf.willCancel = s.willCancel ∧
    (r.stateOf.handle = none →
      s.handle = none ∧ r.stateOf.loopCount = s.loopCount) := by
  unfold cycleStep at h
  cases hp : preBody s i with
  | none =>
    rw [hp] at h
    simp at h
  | some s1 =>
    rw [hp] at h
    simp only [Option.map_some', Option.some_inj] at h
    subst h
    obtain ⟨e1, e2, e3, e4, e5, e6, e7, _, e9⟩ := preBody_inv s i s1 hp
    have hmode : s1.mode.isExplicit = true → s1.handle ≠ none := by
      rw [e4]
      exact e9
    obtain ⟨f1, f2, f3, f4, f5, f6⟩ := postBody_inv s1 i hmode
    refine ⟨f1.trans e1, f2.trans e4, f3.trans e5, f4.trans e6, f5.trans e7, ?_⟩
    intro hn
    obtain ⟨g1, g2⟩ := f6 hn
    exact ⟨e3 g1, g2.trans e2⟩

lemma looperFinish_inv (s : LoopState) (e : CycleExit) :
    ((looperFinish s e).state.loopCount = 0 ∨
      (s.handle = none ∧ (looperFinish s e).state.loopCount = s.loopCount)) ∧
    (looperFinish s e).state.taskLive = false ∧
    (s.hasFaild = true → (looperFinish s e).state.hasFaild = true) ∧
    (looperFinish s e).afterLoopCalled = true := by
  unfold looperFinish
  cases e with
  | stopped => cases hh : s.handle <;> simp [hh]
  | countReached => cases hh : s.handle <;> simp [hh]
  | raised k => cases k <;> cases hh : s.handle <;> simp [hh]

lemma runCycles_hasFaild : ∀ (inps : List CycleInput) (s : LoopState),
    s.hasFaild = true → (runCycles s inps).stateOf.hasFaild = true := by
  intro inps
  induction inps with
  | nil =>
    intro s h
    simpa [runCycles, RunResult.stateOf] using h
  | cons i rest ih =>
    intro s h
    simp only [runCycles]
    cases hc : cycleStep s i with
    | none => simpa [RunResult.stateOf] using h
    | some r =>
      cases r with
      | cont s1 b =>
        apply ih
        have h1 := (cycleStep_inv s i _ hc).1
        simp only [StepRes.stateOf] at h1
        exact h1.trans h
      | exit s1 e =>
        have h1 := (cycleStep_inv s i _ hc).1
        simp only [StepRes.stateOf] at h1
        simp only [RunResult.stateOf]
        exact (looperFinish_inv s1 e).2.2.1 (h1.trans h)

lemma runCycles_count : ∀ (inps : List CycleInput) (s : LoopState),
    (s.handle = none → s.loopCount = 0) →
    ∀ f, runCycles s inps = .finished f →
      f.state.loopCount = 0 ∧ f.state.taskLive = false ∧
        f.afterLoopCalled = true := by
  intro inps
  induction inps with
  | nil =>
    intro s _ f hf
    simp [runCycles] at hf
  | cons i rest ih =>
    intro s hP f hf
    simp only [runCycles] at hf
    cases hc : cycleStep s i with
    | none =>
      rw [hc] at hf
      simp at hf
    | some r =>
      rw [hc] at hf
      cases r with
      | cont s1 b =>
        have h6 := (cycleStep_inv s i _ hc).2.2.2.2.2
        simp only [StepRes.stateOf] at h6
        refine ih s1 ?_ f hf
        intro hn
        exact ((h6 hn).2).trans (hP (h6 hn).1)
      | exit s1 e =>
        simp only [RunResult.finished.injEq] at hf
        subst hf
        have h6 := (cycleStep_inv s i _ hc).2.2.2.2.2
        simp only [StepRes.stateOf] at h6
        obtain ⟨hcount, hlive, _, hafter⟩ := looperFinish_inv s1 e
        refine ⟨?_, hlive, hafter⟩
        rcases hcount with h0 | ⟨hn, hsame⟩
        · exact h0
        · exact hsame.trans (((h6 hn).2).trans (hP (h6 hn).1))

lemma runLooper_hasFaild (s : LoopState) (now0 : Int) (inps : List CycleInput)
    (h : s.hasFaild = true) :
    (runLooper s now0 inps).stateOf.hasFaild = true := by
  unfold runLooper
  cases hm : s.mode with
  | relative d =>
    simp only [hm]
    by_cases hstop : s.shouldStop = true
    · simp only [hstop, if_true, RunResult.stateOf]
      exact (looperFinish_inv _ _).2.2.1 h
    · simp only [hstop, Bool.false_eq_true, if_false]
      exact runCycles_hasFaild inps _ h
  | absolute ts =>
    simp only [hm]
    by_cases hstop : s.shouldStop = true
    · simp only [hstop, if_true, RunResult.stateOf]
      exact (looperFinish_inv _ _).2.2.1 h
    · simp only [hstop, Bool.false_eq_true, if_false]
      exact runCycles_hasFaild inps _ h

lemma runLooper_count (s : LoopState) (now0 : Int) (inps : List CycleInput)
    (h0 : s.loopCount = 0) :
    ∀ f, runLooper s now0 inps = .finished f →
      f.state.loopCount = 0 ∧ f.state.taskLive = false ∧
        f.afterLoopCalled = true := by
  intro f hf
  unfold runLooper at hf
  cases hm : s.mode with
  | relative d =>
    rw [hm] at hf
    by_cases hstop : s.shouldStop = true
    · simp only [hstop, if_true, RunResult.finished.injEq] at hf
      subst hf
      refine ⟨?_, (looperFinish_inv _ _).2.1, (looperFinish_inv _ _).2.2.2⟩
      rcases (looperFinish_inv _ _).1 with hz | ⟨_, hsame⟩
      · exact hz
      · exact hsame.trans h0
    · simp only [hstop, Bool.false_eq_true, if_false] at hf
      refine runCycles_count inps _ ?_ f hf
      intro _
      exact h0
  | absolute ts =>
    rw [hm] at hf
    by_cases hstop : s.shouldStop = true
    · simp only [hstop, if_true, RunResult.finished.injEq] at hf
      subst hf
      refine ⟨?_, (looperFinish_inv _ _).2.1, (looperFinish_inv _ _).2.2.2⟩
      rcases (looperFinish_inv _ _).1 with hz | ⟨_, hsame⟩
      · exact hz
      · exact hsame.trans h0
    · simp only [hstop, Bool.false_eq_true, if_false] at hf
      refine runCycles_count inps _ ?_ f hf
      intro _
      exact h0

lemma recalculate_props (s : Sleeper) (dt now : Int)
    (hold : ∀ h ∈ s.old, h.cancelled = true) :
    (∀ h ∈ (s.recalculate dt now).old, h.cancelled = true) ∧
    (s.recalculate dt now).pendingTriggers = 1 ∧
    (s.recalculate dt now).current.delay = max (dt - now) 0 ∧
    (s.recalculate dt now).futureDone = s.futureDone ∧
    (s.recalculate dt now).futureCancelled = s.futureCancelled := by
  have hold2 : ∀ h ∈ (s.recalculate dt now).old, h.cancelled = true := by
    intro h hm
    rcases List.mem_cons.mp hm with rfl | hm2
    · rfl
    · exact hold h hm2
  refine ⟨hold2, ?_, rfl, rfl, rfl⟩
  simp only [Sleeper.pendingTriggers, Sleeper.recalculate]
  have hfil : (({ s.current with cancelled := true } :: s.old).filter
      (fun h => !h.cancelled)) = [] := by
    rw [List.filter_eq_nil_iff]
    intro a ha
    rcases List.mem_cons.mp ha with rfl | ha2
    · simp
    · simp [hold a ha2]
  rw [hfil]
  simp

/-! ## Claim theorems -/

/-- C1: in absolute-time mode, for every reference instant and every
sorted, de-duplicated, timezone-normalized non-empty list of
times-of-day, `Loop._next_sleep_time` returns the first listed time
whose time-of-day is greater than or equal to the instant converted into
that time's timezone, combined with today's date, and otherwise the
first time in the list combined with tomorrow's date; in particular,
with times 09:00 and 17:00 UTC, now = 08:00 UTC yields 09:00 the same
day and now = 18:00 UTC yields 09:00 the next day. -/
theorem C1_absolute_mode_next_run :
    (∀ (times : List TimeOfDay) (now : Int),
        times ≠ [] →
        (∀ t ∈ times, 0 ≤ t.sod ∧ t.sod < secondsPerDay) →
        times.Pairwise (fun a b => utcKey a < utcKey b) →
        nextSleepTimeAbs times now = specNextRunAbs times now) ∧
    nextSleepTimeAbs [⟨9 * 3600, 0⟩, ⟨17 * 3600, 0⟩] (8 * 3600) = 9 * 3600 ∧
    nextSleepTimeAbs [⟨9 * 3600, 0⟩, ⟨17 * 3600, 0⟩] (18 * 3600) =
      secondsPerDay + 9 * 3600 := by
  refine ⟨fun times now hne _ _ => nextSleepTimeAbs_eq_spec times now hne,
    by decide, by decide⟩

/-- Witness for C1 at the concrete 09:00/17:00 UTC schedule. -/
theorem C1_absolute_mode_next_run_witness :
    nextSleepTimeAbs [⟨9 * 3600, 0⟩, ⟨17 * 3600, 0⟩] (8 * 3600) =
      specNextRunAbs [⟨9 * 3600, 0⟩, ⟨17 * 3600, 0⟩] (8 * 3600) :=
  C1_absolute_mode_next_run.1 [⟨9 * 3600, 0⟩, ⟨17 * 3600, 0⟩] (8 * 3600)
    (by decide) (by decide) (by decide)

/-- C2: in relative-interval mode with a strictly positive duration,
the advance step of `Loop._looper` (lines 179–181) sets the last-run
timestamp to the previous next-run and the new next-run to the previous
next-run plus exactly the configured duration, for every cycle input —
in particular independently of the body's wall-clock behaviour. -/
theorem C2_relative_cadence (s : LoopState) (inp : CycleInput) (d t : Int)
    (hm : s.mode = .relative d) (hd : 0 < d)
    (hf : s.lastLoopFailed = false) (hn : s.nextLoop = some t) :
    (preBody s inp).isSome = true ∧
    ∀ s1, preBody s inp = some s1 →
      s1.lastLoop = some t ∧ s1.nextLoop = some (t + d) ∧
      s1.nextLoop.getD 0 - s1.lastLoop.getD 0 = d := by
  have hpre : preBody s inp = some { s with
      lastLoopFailed := false
      lastLoop := s.nextLoop
      nextLoop := some (s.nextLoop.getD 0 + d) } := by
    simp [preBody, hm, hf, Mode.isExplicit]
  rw [hpre]
  refine ⟨rfl, ?_⟩
  intro s1 h1
  obtain rfl := Option.some.inj h1
  simp [hn]

/-- Witness for C2 at a concrete relative-mode state. -/
theorem C2_relative_cadence_witness :
    c2Next.lastLoop = some 0 ∧ c2Next.nextLoop = some (0 + 10) ∧
      c2Next.nextLoop.getD 0 - c2Next.lastLoop.getD 0 = 10 :=
  (C2_relative_cadence c2State quietCycle 10 0 rfl (by decide) rfl rfl).2
    c2Next (by decide)

/-- C3 (code bug): the claim says every termination path — including
paths on which the loop never suspended on a `Sleeper` — invokes the
after-loop hook, cancels any outstanding timer, and resets the run
counter and the will-cancel and stop-requested flags.  In the source,
`self._handle` is only ever assigned inside `_try_sleep_until`, so on a
path that never slept the `finally` block's `if self._handle:` raises
`AttributeError` after `after_loop` ran but before the resets: a stop
requested during the first body leaves `_should_stop` true, and a
cancellation during the first body leaves `_will_cancel` true. -/
theorem C3_cleanup_skipped_when_never_slept :
    runStopBeforeSleep.finishOut.map (fun f => f.afterLoopCalled) = some true ∧
    runStopBeforeSleep.finishOut.map (fun f => f.raises) =
      some (some RaiseKind.attrError) ∧
    runStopBeforeSleep.stateOf.shouldStop = true ∧
    runStopBeforeSleep.stateOf.loopCount = 0 ∧
    runCancelBeforeSleep.finishOut.map (fun f => f.raises) =
      some (some RaiseKind.attrError) ∧
    runCancelBeforeSleep.stateOf.willCancel = true := by
  decide

/-- C4: with reconnect enabled, a cycle whose body raises a whitelisted
failure leaves the last-run timestamp, the next-run timestamp, the
sticky failed flag, and the run counter unchanged, continues (so the
error hook, which only runs on the fatal exit path, is not invoked)
after a fixed 5-time-unit backoff, and the retry cycle's pre-body phase
skips the advance step, so the loop resumes with the original deadline
state. -/
lemma preBody_failed (s : LoopState) (i : CycleInput)
    (hf : s.lastLoopFailed = true) :
    (preBody s i).isSome = true ∧
    ∀ s2, preBody s i = some s2 → s2.lastLoop = s.lastLoop ∧
      s2.nextLoop = s.nextLoop ∧ s2.loopCount = s.loopCount := by
  cases hm : s.mode with
  | relative d =>
    have hpre : preBody s i = some s := by
      simp [preBody, hm, hf, Mode.isExplicit]
    rw [hpre]
    refine ⟨rfl, ?_⟩
    intro s2 h2
    obtain rfl := Option.some.inj h2
    exact ⟨rfl, rfl, rfl⟩
  | absolute ts =>
    have hpre : preBody s i = some
        { s with handle := some (mkSleeper (s.nextLoop.getD 0) i.wakeNow) } := by
      simp [preBody, hm, hf, Mode.isExplicit]
    rw [hpre]
    refine ⟨rfl, ?_⟩
    intro s2 h2
    obtain rfl := Option.some.inj h2
    exact ⟨rfl, rfl, rfl⟩

theorem C4_whitelisted_failure_frame (s : LoopState) (inp inp2 : CycleInput)
    (isExc : Bool) (hr : s.reconnect = true)
    (ho : inp.outcome = .whitelisted isExc) :
    (postBody s inp).isCont = true ∧
    (postBody s inp).backoffOf = some 5 ∧
    (postBody s inp).stateOf.lastLoop = s.lastLoop ∧
    (postBody s inp).stateOf.nextLoop = s.nextLoop ∧
    (postBody s inp).stateOf.loopCount = s.loopCount ∧
    (postBody s inp).stateOf.hasFaild = s.hasFaild ∧
    (postBody s inp).stateOf.lastLoopFailed = true ∧
    (preBody (postBody s inp).stateOf inp2).isSome = true ∧
    ∀ s2, preBody (postBody s inp).stateOf inp2 = some s2 →
      s2.lastLoop = s.lastLoop ∧ s2.nextLoop = s.nextLoop ∧
      s2.loopCount = s.loopCount := by
  have hpost : postBody s inp = .cont { s with
      shouldStop := s.shouldStop || inp.stopDuringBody
      lastLoopFailed := true } (some 5) := by
    simp [postBody, ho, hr]
  rw [hpost]
  obtain ⟨hs2, hall⟩ := preBody_failed { s with
      shouldStop := s.shouldStop || inp.stopDuringBody
      lastLoopFailed := true } inp2 rfl
  refine ⟨rfl, rfl, rfl, rfl, rfl, rfl, rfl, hs2, ?_⟩
  intro s2 h2
  obtain ⟨a, b, c⟩ := hall s2 h2
  exact ⟨a, b, c⟩

/-- Witness for C4 at a concrete whitelisted-failure cycle. -/
theorem C4_whitelisted_failure_frame_witness :
    (postBody relReady wlCycle).isCont = true ∧
    (postBody relReady wlCycle).backoffOf = some 5 ∧
    (postBody relReady wlCycle).stateOf.lastLoop = relReady.lastLoop ∧
    (postBody relReady wlCycle).stateOf.nextLoop = relReady.nextLoop ∧
    (postBody relReady wlCycle).stateOf.loopCount = relReady.loopCount ∧
    (postBody relReady wlCycle).stateOf.hasFaild = relReady.hasFaild ∧
    (postBody relReady wlCycle).stateOf.lastLoopFailed = true ∧
    (preBody (postBody relReady wlCycle).stateOf quietCycle).isSome = true ∧
    (c4Retry.lastLoop = relReady.lastLoop ∧
      c4Retry.nextLoop = relReady.nextLoop ∧
      c4Retry.loopCount = relReady.loopCount) := by
  obtain ⟨h1, h2, h3, h4, h5, h6, h7, h8, h9⟩ :=
    C4_whitelisted_failure_frame relReady wlCycle quietCycle true rfl rfl
  exact ⟨h1, h2, h3, h4, h5, h6, h7, h8, h9 c4Retry (by decide)⟩

lemma looperFinish_fatal (s : LoopState) :
    (looperFinish s (.raised .fatalExc)).state.hasFaild = true ∧
    (looperFinish s (.raised .fatalExc)).errorHookCalled = true ∧
    (looperFinish s (.raised .fatalExc)).afterLoopCalled = true ∧
    ((looperFinish s (.raised .fatalExc)).raises = none ∨
      (looperFinish s (.raised .fatalExc)).raises = some RaiseKind.attrError) := by
  unfold looperFinish
  cases hh : s.handle <;> simp [hh]

/-- C5 counterexample: the claim as stated quantifies over every
failure that is neither whitelisted nor a cancellation, but a
non-`Exception` `BaseException` (e.g. `KeyboardInterrupt`) raised by the
body escapes the source's `except Exception` clause: the run terminates
with the sticky failed flag still false, the error hook not invoked,
and the failure re-raised out of the run context. -/
theorem C5_counterexample_base_exception :
    runBaseExc.stateOf.hasFaild = false ∧
    Loop.failed runBaseExc.stateOf = false ∧
    runBaseExc.finishOut.map (fun f => f.errorHookCalled) = some false ∧
    runBaseExc.finishOut.map (fun f => f.raises) =
      some (some RaiseKind.baseExc) := by
  decide

/-- C5 (amended): for every `Exception`-derived failure raised by the
task body that is neither whitelisted nor a cancellation (and for every
`Exception`-derived whitelisted failure when reconnect is disabled), the
loop terminates, the sticky failed flag is set so the `failed` observer
returns true, the error hook is invoked with the failure, and the
failure itself is never re-raised to the caller that started the loop
(the only exception the terminated task can raise is the unrelated
cleanup `AttributeError` of C3). -/
theorem C5_fatal_exception_absorbed (s : LoopState) (inp : CycleInput)
    (ho : inp.outcome = .fatal true ∨
      (inp.outcome = .whitelisted true ∧ s.reconnect = false)) :
    (postBody s inp).isCont = false ∧
    ∀ s1 e, postBody s inp = .exit s1 e →
      e = .raised .fatalExc ∧
      (looperFinish s1 e).state.hasFaild = true ∧
      Loop.failed (looperFinish s1 e).state = true ∧
      (looperFinish s1 e).errorHookCalled = true ∧
      (looperFinish s1 e).afterLoopCalled = true ∧
      ((looperFinish s1 e).raises = none ∨
        (looperFinish s1 e).raises = some RaiseKind.attrError) := by
  have hpost : ∃ sx, postBody s inp = .exit sx (.raised .fatalExc) := by
    rcases ho with hf | ⟨hw, hr⟩
    · exact ⟨{ s with shouldStop := s.shouldStop || inp.stopDuringBody },
        by simp [postBody, hf]⟩
    · exact ⟨{ s with
          shouldStop := s.shouldStop || inp.stopDuringBody
          lastLoopFailed := true }, by simp [postBody, hw, hr]⟩
  obtain ⟨sx, hx⟩ := hpost
  rw [hx]
  refine ⟨rfl, ?_⟩
  intro s1 e h
  injection h with h1 h2
  subst h1
  subst h2
  obtain ⟨a, b, c, d⟩ := looperFinish_fatal sx
  exact ⟨rfl, a, a, b, c, d⟩

/-- Witness for C5 at a concrete fatal-exception cycle. -/
theorem C5_fatal_exception_absorbed_witness :
    (postBody relReady fatalCycle).isCont = false ∧
    ((looperFinish relReady (.raised .fatalExc)).state.hasFaild = true ∧
      Loop.failed (looperFinish relReady (.raised .fatalExc)).state = true ∧
      (looperFinish relReady (.raised .fatalExc)).errorHookCalled = true ∧
      (looperFinish relReady (.raised .fatalExc)).afterLoopCalled = true ∧
      ((looperFinish relReady (.raised .fatalExc)).raises = none ∨
        (looperFinish relReady (.raised .fatalExc)).raises =
          some RaiseKind.attrError)) := by
  obtain ⟨h1, h2⟩ :=
    C5_fatal_exception_absorbed relReady fatalCycle (Or.inl rfl)
  obtain ⟨_, a, b, c, d, e⟩ := h2 relReady (.raised .fatalExc) (by decide)
  exact ⟨h1, a, b, c, d, e⟩

lemma any_other_iff (xs : List PyVal) :
    (xs.any (fun v => match v with | .time _ => false | .other => true) = true) ↔
      PyVal.other ∈ xs := by
  induction xs with
  | nil => simp
  | cons v rest ih => cases v <;> simp [ih]

lemma exceptMap_error {α β γ : Type} (f : α → β) (x : Except γ α) :
    (∃ e, x.map f = .error e) ↔ ∃ e, x = .error e := by
  cases x <;> simp [Except.map]

lemma handleIntervalArgs_error_iff (seconds minutes hours : Option ℚ)
    (time : TimeArg) :
    (∃ e, handleIntervalArgs seconds minutes hours time = .error e) ↔
      ((time = .noTime ∧
          seconds.getD 0 + minutes.getD 0 * 60 + hours.getD 0 * 3600 ≤ 0) ∨
       (time ≠ .noTime ∧
          (truthyQ seconds = true ∨ truthyQ minutes = true ∨
            truthyQ hours = true)) ∨
       (time = .seq []) ∨
       (∃ xs, time = .seq xs ∧ PyVal.other ∈ xs) ∨
       (time = .nonSeq)) := by
  cases time with
  | noTime =>
    by_cases hs : seconds.getD 0 + minutes.getD 0 * 60 + hours.getD 0 * 3600 ≤ 0 <;>
      simp [handleIntervalArgs, hs]
  | single t =>
    by_cases ht : (truthyQ seconds || truthyQ minutes || truthyQ hours) = true
    · simp only [handleIntervalArgs, ht, if_true]
      simp only [Bool.or_eq_true] at ht
      simp [ht]
      tauto
    · simp only [handleIntervalArgs, ht, Bool.false_eq_true, if_false]
      simp only [Bool.or_eq_true] at ht
      push_neg at ht
      simp [sortStaticTimes, Except.map, Bool.eq_false_iff, ht]
  | seq xs =>
    by_cases ht : (truthyQ seconds || truthyQ minutes || truthyQ hours) = true
    · simp only [handleIntervalArgs, ht, if_true]
      simp only [Bool.or_eq_true] at ht
      simp [ht]
      tauto
    · simp only [handleIntervalArgs, ht, Bool.false_eq_true, if_false]
      simp only [Bool.or_eq_true] at ht
      rw [exceptMap_error]
      push_neg at ht
      cases hxe : xs.isEmpty
      · by_cases hother : PyVal.other ∈ xs
        · have hany := (any_other_iff xs).mpr hother
          simp [sortStaticTimes, hxe, hany, hother, ht]
        · have hany : xs.any
              (fun v => match v with | .time _ => false | .other => true) = false := by
            rw [Bool.eq_false_iff]
            intro hc
            exact hother ((any_other_iff xs).mp hc)
          have hne : xs ≠ [] := by
            intro hnil
            rw [hnil] at hxe
            simp at hxe
          simp [sortStaticTimes, hxe, hany, hother, ht, hne]
      · have hxnil : xs = [] := List.isEmpty_iff.mp hxe
        subst hxnil
        simp [sortStaticTimes]
  | nonSeq =>
    by_cases ht : (truthyQ seconds || truthyQ minutes || truthyQ hours) = true <;>
      simp [handleIntervalArgs, ht, sortStaticTimes, Except.map]

/-- C6: construction (and runtime interval mutation, whose validation is
the same `handle_interval` code) raises a configuration error
synchronously, before any cycle runs, exactly when the relative interval
total is non-positive, when both the relative and the absolute form are
supplied, when the count bound is supplied and non-positive, or when, in
absolute form, the times-of-day value is empty, not a time or list, or
contains a value that is not a time-of-day. -/
theorem C6_config_error_iff (count : Option Int)
    (seconds minutes hours : Option ℚ) (time : TimeArg) :
    (∃ e, loopInit count seconds minutes hours time = .error e) ↔
      configErrorSpec count seconds minutes hours time := by
  unfold configErrorSpec
  cases count with
  | none =>
    simp only [loopInit]
    rw [exceptMap_error, handleIntervalArgs_error_iff]
    simp
  | some c =>
    by_cases hc : c ≤ 0
    · simp only [loopInit, hc, if_true]
      constructor
      · intro _
        exact Or.inl ⟨c, rfl, hc⟩
      · intro _
        exact ⟨.valueError, rfl⟩
    · simp only [loopInit, hc, if_false]
      rw [exceptMap_error, handleIntervalArgs_error_iff]
      constructor
      · intro h
        exact Or.inr h
      · intro h
        rcases h with ⟨c2, hc2, hle⟩ | h
        · injection hc2 with hc2
          subst hc2
          exact absurd hle hc
        · exact h

/-- Witness for C6: a non-positive count bound at a concrete input is a
configuration error, mapped through the equivalence into the spec-side
error predicate. -/
theorem C6_config_error_iff_witness :
    configErrorSpec (some (-1)) none none none TimeArg.noTime :=
  (C6_config_error_iff (some (-1)) none none none TimeArg.noTime).mp
    ⟨ConfigError.valueError, rfl⟩

/-- C7: for every deadline, `Sleeper.recalculate` cancels the previously
scheduled trigger, installs exactly one new trigger whose remaining wait
is `max(dt - now, 0)` — zero whenever the deadline is already past — and
leaves the completion future untouched, so for a sleeper whose old
triggers are all cancelled exactly one pending trigger remains and the
completion signal is neither lost nor duplicated. -/
theorem C7_recalculate_single_trigger (s : Sleeper) (dt now : Int)
    (hold : ∀ h ∈ s.old, h.cancelled = true) (hnd : s.futureDone = false) :
    (∀ h ∈ (s.recalculate dt now).old, h.cancelled = true) ∧
    (s.recalculate dt now).pendingTriggers = 1 ∧
    (s.recalculate dt now).current.delay = max (dt - now) 0 ∧
    0 ≤ (s.recalculate dt now).current.delay ∧
    (dt ≤ now → (s.recalculate dt now).current.delay = 0) ∧
    (s.recalculate dt now).futureDone = false ∧
    (s.recalculate dt now).futureCancelled = s.futureCancelled := by
  obtain ⟨h1, h2, h3, h4, h5⟩ := recalculate_props s dt now hold
  refine ⟨h1, h2, h3, ?_, ?_, h4.trans hnd, h5⟩
  · rw [h3]
    exact le_max_right _ _
  · intro hle
    rw [h3]
    simp
    omega

/-- Witness for C7 on a fresh sleeper, recalculated to a past deadline. -/
theorem C7_recalculate_single_trigger_witness :
    ((mkSleeper 50 0).recalculate 20 30).pendingTriggers = 1 ∧
    ((mkSleeper 50 0).recalculate 20 30).current.delay = max (20 - 30) 0 ∧
    0 ≤ ((mkSleeper 50 0).recalculate 20 30).current.delay ∧
    ((mkSleeper 50 0).recalculate 20 30).current.delay = 0 ∧
    ((mkSleeper 50 0).recalculate 20 30).futureDone = false ∧
    ((mkSleeper 50 0).recalculate 20 30).futureCancelled =
      (mkSleeper 50 0).futureCancelled := by
  obtain ⟨_, h2, h3, h4, h5, h6, h7⟩ :=
    C7_recalculate_single_trigger (mkSleeper 50 0) 20 30
      (by intro x hx; simp [mkSleeper] at hx) rfl
  exact ⟨h2, h3, h4, h5 (by decide), h6, h7⟩

/-- C8: calling `handle_interval` with a valid new schedule form while
the loop is live and at least one cycle has completed (so `_last_loop`
is set and a sleeper exists) replaces the schedule form, recomputes the
pending next-run deadline from the new form, raises nothing, and — when
the loop is currently suspended on a not-yet-done sleeper — issues a
live `recalculate` on that sleeper, which keeps exactly one pending
trigger and does not resolve or drop the in-flight future, so the timer
fires at most once for the transition; a sleeper that already fired is
left alone. -/
theorem C8_handle_interval_live_update (s : LoopState) (m : Mode) (now : Int)
    (h : Sleeper) (hl : s.taskLive = true) (hc : 1 ≤ s.loopCount)
    (hh : s.handle = some h) (hlast : s.lastLoop.isSome = true)
    (hold : ∀ x ∈ h.old, x.cancelled = true) :
    (applyInterval s m now).1.mode = m ∧
    (applyInterval s m now).1.nextLoop =
      some (nextSleepTime m s.lastLoop now) ∧
    (applyInterval s m now).2.2 = none ∧
    (h.done = false →
      (applyInterval s m now).2.1 = true ∧
      (applyInterval s m now).1.handle =
        some (h.recalculate (nextSleepTime m s.lastLoop now) now) ∧
      (h.recalculate (nextSleepTime m s.lastLoop now) now).pendingTriggers
        = 1 ∧
      (h.recalculate (nextSleepTime m s.lastLoop now) now).futureDone =
        h.futureDone ∧
      (h.recalculate (nextSleepTime m s.lastLoop now) now).futureCancelled =
        h.futureCancelled) ∧
    (h.done = true →
      (applyInterval s m now).2.1 = false ∧
      (applyInterval s m now).1.handle = some h) := by
  by_cases hd : h.done = true
  · simp [applyInterval, hl, hlast, hh, hd]
  · simp [applyInterval, hl, hlast, hh, hd]
    obtain ⟨_, h2, _, h4, h5⟩ :=
      recalculate_props h (nextSleepTime m s.lastLoop now) now hold
    exact ⟨h2, h4, h5⟩

/-- Witness for C8 on a concrete live loop suspended on a fresh sleeper. -/
theorem C8_handle_interval_live_update_witness :
    (applyInterval c8State (.relative 30) 7).1.mode = Mode.relative 30 ∧
    (applyInterval c8State (.relative 30) 7).1.nextLoop =
      some (nextSleepTime (.relative 30) c8State.lastLoop 7) ∧
    (applyInterval c8State (.relative 30) 7).2.2 = none ∧
    (applyInterval c8State (.relative 30) 7).2.1 = true ∧
    (applyInterval c8State (.relative 30) 7).1.handle =
      some ((mkSleeper 20 0).recalculate
        (nextSleepTime (.relative 30) c8State.lastLoop 7) 7) ∧
    ((mkSleeper 20 0).recalculate
      (nextSleepTime (.relative 30) c8State.lastLoop 7) 7).pendingTriggers
      = 1 := by
  obtain ⟨h1, h2, h3, h4, _⟩ :=
    C8_handle_interval_live_update c8State (.relative 30) 7 (mkSleeper 20 0)
      rfl (by decide) rfl rfl (by intro x hx; simp [mkSleeper] at hx)
  obtain ⟨g1, g2, g3, _⟩ := h4 rfl
  exact ⟨h1, h2, h3, g1, g2, g3⟩

/-- C9: `Loop.start` raises `RuntimeError` and leaves the instance state
unchanged when a run context is still live; when none is live it
succeeds, spawns a new run context, and — since every terminated run
leaves the run counter at zero (either the `finally` reset it, or the
loop never slept, in which case it never counted a cycle) — the new
context begins with the run counter equal to 0. -/
theorem C9_start_semantics (s : LoopState) :
    (s.taskLive = true →
      (Loop.start s).raised = true ∧ (Loop.start s).state = s ∧
      (Loop.start s).spawned = false) ∧
    (s.taskLive = false →
      (Loop.start s).raised = false ∧ (Loop.start s).spawned = true ∧
      (Loop.start s).state.taskLive = true ∧
      (Loop.start s).state.loopCount = s.loopCount) ∧
    (s.loopCount = 0 →
      ∀ now inps f, runLooper s now inps = .finished f →
        f.state.loopCount = 0 ∧ f.state.taskLive = false) := by
  refine ⟨?_, ?_, ?_⟩
  · intro hl
    simp [Loop.start, hl]
  · intro hl
    simp [Loop.start, hl]
  · intro h0 now inps f hf
    obtain ⟨hc, hlive, _⟩ := runLooper_count s now inps h0 f hf
    exact ⟨hc, hlive⟩

/-- Witness for C9: a fresh constructed loop starts successfully, and a
started one raises; a full stopped run ends with the counter at zero. -/
theorem C9_start_semantics_witness :
    ((Loop.start (initLoopState (.relative 10) none true)).raised = false ∧
      (Loop.start (initLoopState (.relative 10) none true)).spawned = true ∧
      (Loop.start (initLoopState (.relative 10) none true)).state.taskLive
        = true ∧
      (Loop.start (initLoopState (.relative 10) none true)).state.loopCount =
        (initLoopState (.relative 10) none true).loopCount) ∧
    ((Loop.start c9Loop).raised = true ∧
      (Loop.start c9Loop).state = c9Loop ∧
      (Loop.start c9Loop).spawned = false) ∧
    (c9Fin.state.loopCount = 0 ∧ c9Fin.state.taskLive = false) :=
  ⟨(C9_start_semantics (initLoopState (.relative 10) none true)).2.1 rfl,
    (C9_start_semantics c9Loop).1 rfl,
    (C9_start_semantics c9Loop).2.2 rfl 0 [quietCycle] c9Fin (by decide)⟩

/-- C10: once the sticky failed flag is set, no operation of the
instance resets it — `start`, `stop`, `cancel`, interval mutation, and
any further run context (of any length and any outcome) all leave it
set, so the `failed` observer keeps returning true. -/
theorem C10_failed_flag_sticky (s : LoopState) (h : s.hasFaild = true) :
    (Loop.stop s).hasFaild = true ∧
    (Loop.cancel s).hasFaild = true ∧
    (Loop.start s).state.hasFaild = true ∧
    (∀ m now, (applyInterval s m now).1.hasFaild = true) ∧
    (∀ now inps, (runLooper s now inps).stateOf.hasFaild = true ∧
      Loop.failed (runLooper s now inps).stateOf = true) := by
  refine ⟨?_, h, ?_, ?_, ?_⟩
  · unfold Loop.stop
    split <;> simp [h]
  · unfold Loop.start
    split <;> simp [h]
  · intro m now
    cases hh : s.handle with
    | none =>
      by_cases hcond : (s.taskLive && s.lastLoop.isSome) = true <;>
        simp [applyInterval, hcond, hh, h]
    | some hs =>
      by_cases hcond : (s.taskLive && s.lastLoop.isSome) = true
      · by_cases hdone : (!hs.done) = true <;>
          simp [applyInterval, hcond, hh, hdone, h]
      · simp [applyInterval, hcond, hh, h]
  · intro now inps
    have := runLooper_hasFaild s now inps h
    exact ⟨this, this⟩

/-- Witness for C10 on a concrete failed instance. -/
theorem C10_failed_flag_sticky_witness :
    (Loop.stop failedState).hasFaild = true ∧
    (Loop.cancel failedState).hasFaild = true ∧
    (Loop.start failedState).state.hasFaild = true ∧
    (applyInterval failedState (.relative 30) 7).1.hasFaild = true ∧
    ((runLooper failedState 0 [quietCycle]).stateOf.hasFaild = true ∧
      Loop.failed (runLooper failedState 0 [quietCycle]).stateOf = true) := by
  obtain ⟨h1, h2, h3, h4, h5⟩ := C10_failed_flag_sticky failedState rfl
  exact ⟨h1, h2, h3, h4 (.relative 30) 7, h5 0 [quietCycle]⟩
